import Mathlib

/-
Verification of the sumo-io game server core (src/backend/main.py).

The Python module is shallowly embedded: players and rooms become Lean
structures, in-place mutation of the room registry becomes functional
update keyed by id (Python dict keys are the `id` fields of the stored
values), float arithmetic is modelled by real arithmetic with
`Real.sqrt`, `Real.cos`, `Real.sin`, and every use of the `random`
module is a parameter of the embedded function.  Iteration order of a
Python dict is insertion order, so `players` and `rooms` are lists in
insertion order.  The `websocket` field of `Player` carries no game
state and is omitted.
-/

-- Game constants (main.py lines 38-46)

def ARENA_RADIUS : ℝ := 400

def PLAYER_RADIUS : ℝ := 25

noncomputable def FRICTION : ℝ := 0.96

def BOUNCE_FORCE : ℝ := 8

def MAX_PLAYERS_PER_ROOM : Nat := 8

def MIN_PLAYERS_TO_START : Nat := 2

def COUNTDOWN_SECONDS : Int := 3

-- Player (main.py lines 59-71); `websocket` omitted (no game state)

structure Player where
  id : String
  name : String
  x : ℝ
  y : ℝ
  vx : ℝ
  vy : ℝ
  color : String
  alive : Bool
  score : Nat
  is_bot : Bool

-- Room (main.py lines 88-97); `players` is the dict in insertion
-- order, each value keyed by its `id` field

structure Room where
  id : String
  owner_id : Option String
  is_public : Bool
  is_bot_room : Bool
  players : List Player
  state : String
  countdown : Int
  winner : Option String

-- GameManager (main.py lines 137-144)

structure GameManager where
  rooms : List Room
  player_rooms : List (String × String)

def colorsList : List String :=
  ["#FF6B6B", "#4ECDC4", "#45B7D1", "#96CEB4",
   "#FFEAA7", "#DDA0DD", "#98D8C8", "#F7DC6F"]

-- Dict primitives over insertion-ordered association lists

def dictLookup (l : List (String × String)) (k : String) : Option String :=
  (l.find? (fun e => e.1 == k)).map (fun e => e.2)

def dictInsert (l : List (String × String)) (k v : String) : List (String × String) :=
  if l.any (fun e => e.1 == k) then l.map (fun e => if e.1 == k then (k, v) else e)
  else l ++ [(k, v)]

def dictErase (l : List (String × String)) (k : String) : List (String × String) :=
  l.filter (fun e => !(e.1 == k))

-- `room.players[pid] = player` where `player.id = pid`

def playersInsert (ps : List Player) (p : Player) : List Player :=
  if ps.any (fun q => q.id == p.id) then ps.map (fun q => if q.id == p.id then p else q)
  else ps ++ [p]

-- `self.rooms[room.id] = mutated room` seen functionally: every
-- registry slot holding this id is replaced

def setRoom (rooms : List Room) (room' : Room) : List Room :=
  rooms.map (fun r => if r.id == room'.id then room' else r)

def findRoom (rooms : List Room) (rid : String) : Option Room :=
  rooms.find? (fun r => r.id == rid)

def roomIds (rooms : List Room) : List String :=
  rooms.map Room.id

-- generate_room_id (main.py lines 146-147): `random.choices` is
-- modelled by `pick`, giving the index of each sampled character

def ascii_uppercase : List Char :=
  "ABCDEFGHIJKLMNOPQRSTUVWXYZ".toList

def generate_room_id (pick : Nat → Nat) : String :=
  String.mk ((List.range 4).map (fun k => ascii_uppercase.getD (pick k % 26) 'A'))

-- create_room (main.py lines 152-159): `rng n` drives the n-th call
-- of generate_room_id; the `while room_id in self.rooms` loop takes
-- the first fresh candidate, so it needs a fresh one to exist

def GameManager.create_room (gm : GameManager) (rng : Nat → Nat → Nat)
    (is_public is_bot_room : Bool)
    (h : ∃ n, generate_room_id (rng n) ∉ roomIds gm.rooms) : GameManager × Room :=
  let rid := generate_room_id (rng (Nat.find h))
  let room : Room :=
    { id := rid, owner_id := none, is_public := is_public, is_bot_room := is_bot_room,
      players := [], state := "waiting", countdown := COUNTDOWN_SECONDS, winner := none }
  ({ gm with rooms := gm.rooms ++ [room] }, room)

-- add_player (main.py lines 284-305): the fresh player id and the
-- random spawn position are parameters

def GameManager.add_player (gm : GameManager) (room : Room) (pid name : String)
    (x y : ℝ) : GameManager × Room :=
  let color := colorsList.getD (room.players.length % colorsList.length) "#FF6B6B"
  let player : Player :=
    { id := pid, name := name.take 15, x := x, y := y, vx := 0, vy := 0,
      color := color, alive := true, score := 0, is_bot := false }
  let room' :=
    { room with players := playersInsert room.players player,
                owner_id := if room.owner_id = none then some pid else room.owner_id }
  ({ gm with rooms := setRoom gm.rooms room',
             player_rooms := dictInsert gm.player_rooms pid room.id }, room')

-- add_bot (main.py lines 161-183): bot id, bot name and spawn
-- position are parameters

def GameManager.add_bot (gm : GameManager) (room : Room) (pid name : String)
    (x y : ℝ) : GameManager × Room :=
  let color := colorsList.getD (room.players.length % colorsList.length) "#FF6B6B"
  let bot : Player :=
    { id := pid, name := name, x := x, y := y, vx := 0, vy := 0,
      color := color, alive := true, score := 0, is_bot := true }
  let room' :=
    { room with players := playersInsert room.players bot,
                owner_id := if room.owner_id = none then some pid else room.owner_id }
  ({ gm with rooms := setRoom gm.rooms room',
             player_rooms := dictInsert gm.player_rooms pid room.id }, room')

-- remove_player (main.py lines 307-325)

def GameManager.remove_player (gm : GameManager) (pid : String) : GameManager :=
  match dictLookup gm.player_rooms pid with
  | none => gm
  | some rid =>
    let gm1 :=
      match findRoom gm.rooms rid with
      | none => gm
      | some room =>
        let ps' := room.players.filter (fun q : Player => !(q.id == pid))
        let owner' :=
          if room.owner_id = some pid ∧ 0 < ps'.length
          then ps'.head?.map Player.id else room.owner_id
        if ps'.length = 0 then
          { gm with rooms := gm.rooms.filter (fun r => !(r.id == rid)) }
        else
          { gm with rooms := setRoom gm.rooms { room with players := ps', owner_id := owner' } }
    { gm1 with player_rooms := dictErase gm1.player_rooms pid }

-- start_game (main.py lines 327-352)

def GameManager.start_game (gm : GameManager) (pid : String) : GameManager × Bool :=
  match dictLookup gm.player_rooms pid with
  | none => (gm, false)
  | some rid =>
    match findRoom gm.rooms rid with
    | none => (gm, false)
    | some room =>
      if room.owner_id ≠ some pid then (gm, false)
      else if room.players.length < MIN_PLAYERS_TO_START then (gm, false)
      else if room.state ≠ "waiting" then (gm, false)
      else
        let room' := { room with state := "countdown", countdown := COUNTDOWN_SECONDS }
        ({ gm with rooms := setRoom gm.rooms room' }, true)

-- The respawn loop shared by rematch (main.py 381-388), the bot-room
-- reset (504-511), the countdown-end reset (538-545) and the bot-room
-- auto-rematch (571-578)

noncomputable def respawnPlayers (ps : List Player) : List Player :=
  ps.enum.map (fun ip =>
    { ip.2 with
      alive := true,
      x := Real.cos (2 * Real.pi * (ip.1 : ℝ) / (ps.length : ℝ)) * (ARENA_RADIUS * 0.6),
      y := Real.sin (2 * Real.pi * (ip.1 : ℝ) / (ps.length : ℝ)) * (ARENA_RADIUS * 0.6),
      vx := 0, vy := 0 })

-- rematch (main.py lines 354-390)

noncomputable def GameManager.rematch (gm : GameManager) (pid : String) : GameManager × Bool :=
  match dictLookup gm.player_rooms pid with
  | none => (gm, false)
  | some rid =>
    match findRoom gm.rooms rid with
    | none => (gm, false)
    | some room =>
      if room.owner_id ≠ some pid then (gm, false)
      else if room.players.length < MIN_PLAYERS_TO_START then (gm, false)
      else if room.state ≠ "finished" then (gm, false)
      else
        let room' :=
          { room with
            state := "countdown", winner := none, countdown := COUNTDOWN_SECONDS,
            players := respawnPlayers room.players }
        ({ gm with rooms := setRoom gm.rooms room' }, true)

-- apply_input (main.py lines 392-411)

noncomputable def GameManager.apply_input (gm : GameManager) (pid : String)
    (dx dy : ℝ) : GameManager :=
  match dictLookup gm.player_rooms pid with
  | none => gm
  | some rid =>
    match findRoom gm.rooms rid with
    | none => gm
    | some room =>
      if room.state = "playing" then
        match room.players.find? (fun p => p.id == pid) with
        | none => gm
        | some p =>
          if p.alive then
            let magnitude := Real.sqrt (dx * dx + dy * dy)
            if magnitude > 0 then
              let p' := { p with vx := p.vx + dx / magnitude * 1.5,
                                 vy := p.vy + dy / magnitude * 1.5 }
              let room' := { room with players := playersInsert room.players p' }
              { gm with rooms := setRoom gm.rooms room' }
            else gm
          else gm
      else gm

-- One player of the integrate/friction/eject loop of update_physics
-- (main.py lines 419-431); only called on players of the alive
-- snapshot

noncomputable def stepPlayer (p : Player) : Player :=
  { p with
    x := p.x + p.vx, y := p.y + p.vy,
    vx := p.vx * FRICTION, vy := p.vy * FRICTION,
    alive := if Real.sqrt ((p.x + p.vx) ^ 2 + (p.y + p.vy) ^ 2) > ARENA_RADIUS + PLAYER_RADIUS
             then false else p.alive }

-- One unordered pair of the collision loop (main.py lines 436-468)

noncomputable def collidePair (p1 p2 : Player) : Player × Player :=
  let dx := p2.x - p1.x
  let dy := p2.y - p1.y
  let distance := Real.sqrt (dx * dx + dy * dy)
  if distance < PLAYER_RADIUS * 2 ∧ distance > 0 then
    let nx := dx / distance
    let ny := dy / distance
    let overlap := PLAYER_RADIUS * 2 - distance
    let q1 := { p1 with x := p1.x - nx * overlap / 2, y := p1.y - ny * overlap / 2 }
    let q2 := { p2 with x := p2.x + nx * overlap / 2, y := p2.y + ny * overlap / 2 }
    let dvn := (q1.vx - q2.vx) * nx + (q1.vy - q2.vy) * ny
    if dvn > 0 then
      ({ q1 with vx := q1.vx - nx * dvn * 0.8 - nx * BOUNCE_FORCE * 0.5,
                 vy := q1.vy - ny * dvn * 0.8 - ny * BOUNCE_FORCE * 0.5 },
       { q2 with vx := q2.vx + nx * dvn * 0.8 + nx * BOUNCE_FORCE * 0.5,
                 vy := q2.vy + ny * dvn * 0.8 + ny * BOUNCE_FORCE * 0.5 })
    else (q1, q2)
  else (p1, p2)

-- The pair (i, j) of list slots shares its mutations through the slots,
-- as the Python pass shares them through the aliased Player objects

noncomputable def collideAt (ps : List Player) (i j : Nat) : List Player :=
  match ps[i]?, ps[j]? with
  | some p1, some p2 =>
    let q := collidePair p1 p2
    (ps.set i q.1).set j q.2
  | _, _ => ps

def pairsFrom : List Nat → List (Nat × Nat)
  | [] => []
  | i :: rest => rest.map (fun j => (i, j)) ++ pairsFrom rest

-- Slots of the alive snapshot `alive_players` (main.py line 417),
-- taken before integration and reused by the collision loop

def aliveIndices (ps : List Player) : List Nat :=
  (List.range ps.length).filter (fun i => (ps[i]?.map Player.alive).getD false)

noncomputable def collisionPass (ps : List Player) (idx : List Nat) : List Player :=
  (pairsFrom idx).foldl (fun acc ij => collideAt acc ij.1 ij.2) ps

-- Winner bookkeeping (main.py lines 470-477): bump the score of the
-- first alive player and return its id

def bumpWinner : List Player → List Player × Option String
  | [] => ([], none)
  | p :: rest =>
    if p.alive then ({ p with score := p.score + 1 } :: rest, some p.id)
    else
      let r := bumpWinner rest
      (p :: r.1, r.2)

def checkWinner (room : Room) : Room :=
  if (room.players.filter (fun p => p.alive)).length ≤ 1 ∧
      MIN_PLAYERS_TO_START ≤ room.players.length then
    let r := bumpWinner room.players
    { room with state := "finished", players := r.1,
                winner := match r.2 with
                          | some wid => some wid
                          | none => room.winner }
  else room

-- update_physics (main.py lines 413-477), split into the movement
-- phase (integration + eject + collision pass over the pre-step alive
-- snapshot) and the winner phase

noncomputable def physicsMove (room : Room) : Room :=
  { room with
    players := collisionPass
      (room.players.map (fun p => if p.alive then stepPlayer p else p))
      (aliveIndices room.players) }

noncomputable def update_physics (room : Room) : Room :=
  if room.state = "playing" then checkWinner (physicsMove room) else room

-- Bot AI (main.py lines 198-233).  `min(targets, key=dist)` keeps the
-- first element attaining the minimal key

noncomputable def nearestTo (bot : Player) : List Player → Option Player
  | [] => none
  | p :: rest =>
    some (rest.foldl (fun best q =>
      if Real.sqrt ((q.x - bot.x) ^ 2 + (q.y - bot.y) ^ 2) <
          Real.sqrt ((best.x - bot.x) ^ 2 + (best.y - bot.y) ^ 2)
      then q else best) p)

noncomputable def botTargetVec (ps : List Player) (bot : Player) : ℝ × ℝ :=
  let aliveP := ps.filter (fun p => p.alive)
  let targets0 := aliveP.filter (fun p => !(p.id == bot.id) && !p.is_bot)
  let targets := if targets0.isEmpty then aliveP.filter (fun p => !(p.id == bot.id))
                 else targets0
  match nearestTo bot targets with
  | some t => (t.x - bot.x, t.y - bot.y)
  | none => (-bot.x, -bot.y)

-- One alive bot of update_bot_ai; `nz` is the pair of uniform noise
-- draws, `pushQ` the 15-percent coin

noncomputable def botStep (ps : List Player) (bot : Player) (nz : ℝ × ℝ)
    (pushQ : Bool) : Player :=
  let v := botTargetVec ps bot
  let distance := Real.sqrt (v.1 * v.1 + v.2 * v.2)
  if distance > 0 then
    let ux := v.1 / distance + nz.1
    let uy := v.2 / distance + nz.2
    if pushQ then { bot with vx := bot.vx + ux * 1.2, vy := bot.vy + uy * 1.2 }
    else bot
  else bot

noncomputable def botsGo (ps : List Player) (noise : Nat → ℝ × ℝ) (push : Nat → Bool) :
    Nat → List Player → List Player
  | _, [] => []
  | i, p :: rest =>
    (if p.alive && p.is_bot then botStep ps p (noise i) (push i) else p) ::
      botsGo ps noise push (i + 1) rest

noncomputable def update_bot_ai (room : Room) (noise : Nat → ℝ × ℝ)
    (push : Nat → Bool) : Room :=
  if room.state = "playing" then
    { room with players := botsGo room.players noise push 0 room.players }
  else room

-- The game-loop transitions touching `winner` (run_game_loop): the
-- bot-room reset to waiting (main.py lines 499-511) and the bot-room
-- auto-rematch (lines 566-578)

noncomputable def resetBotRoom (room : Room) : Room :=
  { room with state := "waiting", winner := none, countdown := COUNTDOWN_SECONDS,
              players := respawnPlayers room.players }

noncomputable def autoRematch (room : Room) : Room :=
  { room with state := "countdown", winner := none, countdown := COUNTDOWN_SECONDS,
              players := respawnPlayers room.players }

-- Invariant predicates of the spec, as decidable Bool checks

-- Owner invariant: owner_id is null only for an empty room, otherwise
-- it is a key of `players`

def ownerOk (room : Room) : Bool :=
  match room.owner_id with
  | none => room.players.isEmpty
  | some oid => room.players.any (fun p => p.id == oid)

-- Winner invariant: winner is non-null only in state=finished and
-- names a player currently in the room with alive=true

def winnerOk (room : Room) : Bool :=
  match room.winner with
  | none => true
  | some wid => room.state == "finished" && room.players.any (fun p => p.id == wid && p.alive)

-- Concrete states used by counterexamples and witnesses.
-- exRoom: two alive players on the x-axis at radius 430 and 470, both
-- beyond the eject threshold 425, at distance 40 < 2*PLAYER_RADIUS

noncomputable def exA : Player :=
  ⟨"a", "A", 430, 0, 0, 0, "#FF6B6B", true, 0, false⟩

noncomputable def exB : Player :=
  ⟨"b", "B", 470, 0, 0, 0, "#4ECDC4", true, 0, false⟩

-- exA after the integrate/friction/eject loop: ejected in place

noncomputable def exA1 : Player :=
  ⟨"a", "A", 430, 0, 0, 0, "#FF6B6B", false, 0, false⟩

noncomputable def exB1 : Player :=
  ⟨"b", "B", 470, 0, 0, 0, "#4ECDC4", false, 0, false⟩

-- exA after the collision pass of the same tick: displaced to x=425

noncomputable def exA2 : Player :=
  ⟨"a", "A", 425, 0, 0, 0, "#FF6B6B", false, 0, false⟩

noncomputable def exB2 : Player :=
  ⟨"b", "B", 475, 0, 0, 0, "#4ECDC4", false, 0, false⟩

noncomputable def exRoom : Room :=
  ⟨"ROOM", some "a", false, false, [exA, exB], "playing", 3, none⟩

-- exRoomW: a playing room with one dead player and one alive player
-- resting at the origin

noncomputable def wDead : Player :=
  ⟨"w1", "W1", 10, 0, 0, 0, "#FF6B6B", false, 0, false⟩

noncomputable def wAlive : Player :=
  ⟨"w2", "W2", 0, 0, 0, 0, "#4ECDC4", true, 0, false⟩

noncomputable def exRoomW : Room :=
  ⟨"WXYZ", some "w1", false, false, [wDead, wAlive], "playing", 3, none⟩

noncomputable def gmEx : GameManager :=
  ⟨[exRoomW], [("w1", "WXYZ"), ("w2", "WXYZ")]⟩

-- Two alive players sharing one position (degenerate d = 0 pair)

noncomputable def cSame1 : Player :=
  ⟨"s1", "S1", 5, 5, 1, 0, "#FF6B6B", true, 0, false⟩

noncomputable def cSame2 : Player :=
  ⟨"s2", "S2", 5, 5, -1, 0, "#4ECDC4", true, 0, false⟩

-- Helper lemmas

lemma sqrt_eq_of (a b : ℝ) (hb : 0 ≤ b) (h : b ^ 2 = a) : Real.sqrt a = b := by
  rw [← h]
  exact Real.sqrt_sq hb

lemma collidePair_fst_alive (p1 p2 : Player) : (collidePair p1 p2).1.alive = p1.alive := by
  simp only [collidePair]
  split_ifs <;> rfl

lemma collidePair_snd_alive (p1 p2 : Player) : (collidePair p1 p2).2.alive = p2.alive := by
  simp only [collidePair]
  split_ifs <;> rfl

lemma getElem?_some_lt {ps : List Player} {n : Nat} {p : Player} (h : ps[n]? = some p) :
    n < ps.length := by
  by_contra hn
  rw [List.getElem?_eq_none (by omega)] at h
  cases h

lemma collideAt_alive (ps : List Player) (i j k : Nat) :
    ((collideAt ps i j)[k]?).map Player.alive = (ps[k]?).map Player.alive := by
  unfold collideAt
  cases h1 : ps[i]? with
  | none => rfl
  | some p1 =>
    cases h2 : ps[j]? with
    | none => rfl
    | some p2 =>
      dsimp only
      by_cases hkj : j = k
      · subst hkj
        rw [List.getElem?_set_eq_of_lt _ (by simpa using getElem?_some_lt h2), h2]
        simp [collidePair_snd_alive]
      · rw [List.getElem?_set_ne hkj]
        by_cases hki : i = k
        · subst hki
          rw [List.getElem?_set_eq_of_lt _ (getElem?_some_lt h1), h1]
          simp [collidePair_fst_alive]
        · rw [List.getElem?_set_ne hki]

lemma collideAt_other (ps : List Player) (i j k : Nat) (hi : i ≠ k) (hj : j ≠ k) :
    (collideAt ps i j)[k]? = ps[k]? := by
  unfold collideAt
  cases h1 : ps[i]? with
  | none => rfl
  | some p1 =>
    cases h2 : ps[j]? with
    | none => rfl
    | some p2 =>
      dsimp only
      rw [List.getElem?_set_ne hj, List.getElem?_set_ne hi]

lemma foldPairs_alive (pairs : List (Nat × Nat)) : ∀ (ps : List Player) (k : Nat),
    ((pairs.foldl (fun acc ij => collideAt acc ij.1 ij.2) ps)[k]?).map Player.alive
      = (ps[k]?).map Player.alive := by
  induction pairs with
  | nil => intro ps k; rfl
  | cons ij rest IH =>
    intro ps k
    rw [List.foldl_cons, IH, collideAt_alive]

lemma collisionPass_alive (ps : List Player) (idx : List Nat) (k : Nat) :
    ((collisionPass ps idx)[k]?).map Player.alive = (ps[k]?).map Player.alive :=
  foldPairs_alive (pairsFrom idx) ps k

lemma pairsFrom_mem : ∀ (l : List Nat) (ij : Nat × Nat), ij ∈ pairsFrom l →
    ij.1 ∈ l ∧ ij.2 ∈ l := by
  intro l
  induction l with
  | nil => intro ij h; cases h
  | cons a rest IH =>
    intro ij h
    rw [pairsFrom, List.mem_append] at h
    rcases h with h | h
    · rcases List.mem_map.mp h with ⟨j, hj, rfl⟩
      exact ⟨List.mem_cons_self a rest, List.mem_cons_of_mem a hj⟩
    · rcases IH ij h with ⟨h1, h2⟩
      exact ⟨List.mem_cons_of_mem a h1, List.mem_cons_of_mem a h2⟩

lemma foldPairs_other (pairs : List (Nat × Nat)) (k : Nat)
    (h : ∀ ij ∈ pairs, ij.1 ≠ k ∧ ij.2 ≠ k) : ∀ ps : List Player,
    (pairs.foldl (fun acc ij => collideAt acc ij.1 ij.2) ps)[k]? = ps[k]? := by
  induction pairs with
  | nil => intro ps; rfl
  | cons ij rest IH =>
    intro ps
    rw [List.foldl_cons]
    rcases h ij (List.mem_cons_self ij rest) with ⟨h1, h2⟩
    rw [IH (fun ij' hm => h ij' (List.mem_cons_of_mem ij hm)), collideAt_other ps ij.1 ij.2 k h1 h2]

lemma collisionPass_other (ps : List Player) (idx : List Nat) (k : Nat) (hk : k ∉ idx) :
    (collisionPass ps idx)[k]? = ps[k]? :=
  foldPairs_other (pairsFrom idx) k
    (fun ij hm => by
      rcases pairsFrom_mem idx ij hm with ⟨h1, h2⟩
      constructor
      · intro he; exact hk (he ▸ h1)
      · intro he; exact hk (he ▸ h2))
    ps

lemma bumpWinner_alive (ps : List Player) : ∀ k : Nat,
    (((bumpWinner ps).1)[k]?).map Player.alive = (ps[k]?).map Player.alive := by
  induction ps with
  | nil => intro k; rfl
  | cons p rest IH =>
    intro k
    rw [bumpWinner]
    by_cases hp : p.alive
    · rw [if_pos hp]
      cases k with
      | zero => simp
      | succ k => simp
    · rw [if_neg hp]
      cases k with
      | zero => simp
      | succ k => simpa using IH k

lemma bumpWinner_dead (ps : List Player) : ∀ (k : Nat) (p : Player),
    ps[k]? = some p → p.alive = false → ((bumpWinner ps).1)[k]? = some p := by
  induction ps with
  | nil => intro k p h _; cases k <;> cases h
  | cons q rest IH =>
    intro k p h hd
    rw [bumpWinner]
    by_cases hq : q.alive
    · rw [if_pos hq]
      cases k with
      | zero =>
        simp only [List.getElem?_cons_zero, Option.some.injEq] at h
        rw [← h] at hd
        rw [hd] at hq
        cases hq
      | succ k => simpa using h
    · rw [if_neg hq]
      cases k with
      | zero => simpa using h
      | succ k =>
        simp only [List.getElem?_cons_succ] at h ⊢
        exact IH k p h hd

lemma bumpWinner_none (ps : List Player) (h : ps.filter (fun p => p.alive) = []) :
    bumpWinner ps = (ps, none) := by
  induction ps with
  | nil => rfl
  | cons p rest IH =>
    rw [List.filter_cons] at h
    by_cases hp : p.alive
    · rw [if_pos (by simpa using hp)] at h
      cases h
    · rw [if_neg (by simpa using hp)] at h
      rw [bumpWinner, if_neg hp, IH h]

lemma bumpWinner_first (ps : List Player) : ∀ (w : Player) (ws : List Player),
    ps.filter (fun p => p.alive) = w :: ws →
    (bumpWinner ps).2 = some w.id ∧
      ∃ i : Nat, ps[i]? = some w ∧
        ((bumpWinner ps).1)[i]? = some { w with score := w.score + 1 } := by
  induction ps with
  | nil => intro w ws h; cases h
  | cons p rest IH =>
    intro w ws h
    rw [List.filter_cons] at h
    by_cases hp : p.alive
    · rw [if_pos (by simpa using hp)] at h
      rw [List.cons.injEq] at h
      obtain ⟨rfl, -⟩ := h
      rw [bumpWinner, if_pos hp]
      exact ⟨rfl, 0, by simp, by simp⟩
    · rw [if_neg (by simpa using hp)] at h
      rcases IH w ws h with ⟨h2, i, hi1, hi2⟩
      rw [bumpWinner, if_neg hp]
      exact ⟨h2, i + 1, by simpa using hi1, by simpa using hi2⟩

lemma aliveIndices_not_mem (ps : List Player) (k : Nat) (p : Player)
    (hp : ps[k]? = some p) (hd : p.alive = false) : k ∉ aliveIndices ps := by
  intro hmem
  rw [aliveIndices, List.mem_filter, hp] at hmem
  simp [hd] at hmem

lemma checkWinner_alive (room : Room) (k : Nat) :
    (((checkWinner room).players)[k]?).map Player.alive
      = ((room.players)[k]?).map Player.alive := by
  rw [checkWinner]
  split_ifs with hc
  · exact bumpWinner_alive room.players k
  · rfl

lemma checkWinner_dead (room : Room) (k : Nat) (p : Player)
    (hp : (room.players)[k]? = some p) (hd : p.alive = false) :
    ((checkWinner room).players)[k]? = some p := by
  rw [checkWinner]
  split_ifs with hc
  · exact bumpWinner_dead room.players k p hp hd
  · exact hp

/-- C1 (amended): the collision pass of a tick iterates the alive
snapshot taken at the start of `update_physics`, before integration and
eject.  A player already dead when the tick begins is therefore in no
collision pair and its whole record is untouched; a player ejected in
step 3 of the same tick, however, is still in the snapshot and does
take part in the pass (see the counterexample). -/
theorem dead_player_untouched (room : Room) (i : Nat) (p : Player)
    (hp : (room.players)[i]? = some p) (hd : p.alive = false) :
    ((update_physics room).players)[i]? = some p := by
  rw [update_physics]
  split_ifs with hs
  · have hmap : (room.players.map (fun p => if p.alive then stepPlayer p else p))[i]? = some p := by
      rw [List.getElem?_map, hp]
      simp [hd]
    have hpass : ((physicsMove room).players)[i]? = some p := by
      show (collisionPass _ (aliveIndices room.players))[i]? = some p
      rw [collisionPass_other _ _ _ (aliveIndices_not_mem room.players i p hp hd)]
      exact hmap
    exact checkWinner_dead (physicsMove room) i p hpass hd
  · exact hp

/-- C2 (amended): if a player is alive before the tick and its
post-integration radius (computed in step 3, before the collision pass
displaces anyone) is at most ARENA_RADIUS + PLAYER_RADIUS, the player is
still alive after the whole step.  The code decides ejection on the
step-3 position only, so the bound must be read there, not on the
post-step position (see the counterexample). -/
theorem stays_alive_amended (room : Room) (i : Nat) (p : Player)
    (hp : (room.players)[i]? = some p) (ha : p.alive = true)
    (hr : Real.sqrt ((p.x + p.vx) ^ 2 + (p.y + p.vy) ^ 2) ≤ ARENA_RADIUS + PLAYER_RADIUS) :
    (((update_physics room).players)[i]?).map Player.alive = some true := by
  rw [update_physics]
  split_ifs with hs
  · rw [checkWinner_alive]
    show ((collisionPass _ (aliveIndices room.players))[i]?).map Player.alive = some true
    rw [collisionPass_alive, List.getElem?_map, hp]
    have hmap : (some p).map (fun q => if q.alive then stepPlayer q else q)
        = some (stepPlayer p) := by
      simp [ha]
    rw [hmap]
    have hstep : (stepPlayer p).alive = p.alive := by
      show (if Real.sqrt ((p.x + p.vx) ^ 2 + (p.y + p.vy) ^ 2) > ARENA_RADIUS + PLAYER_RADIUS
            then false else p.alive) = p.alive
      rw [if_neg (not_lt.mpr hr)]
    simp [hstep, ha]
  · rw [hp]
    simp [ha]

-- Concrete evaluation of one tick on exRoom

lemma stepA : stepPlayer exA = exA1 := by
  unfold stepPlayer exA exA1
  dsimp only
  rw [sqrt_eq_of (((430:ℝ) + 0) ^ 2 + ((0:ℝ) + 0) ^ 2) 430 (by norm_num) (by norm_num)]
  rw [if_pos (by norm_num [ARENA_RADIUS, PLAYER_RADIUS])]
  simp only [Player.mk.injEq]
  norm_num [FRICTION]

lemma stepB : stepPlayer exB = exB1 := by
  unfold stepPlayer exB exB1
  dsimp only
  rw [sqrt_eq_of (((470:ℝ) + 0) ^ 2 + ((0:ℝ) + 0) ^ 2) 470 (by norm_num) (by norm_num)]
  rw [if_pos (by norm_num [ARENA_RADIUS, PLAYER_RADIUS])]
  simp only [Player.mk.injEq]
  norm_num [FRICTION]

lemma collideAB : collidePair exA1 exB1 = (exA2, exB2) := by
  have hsqrt : Real.sqrt (((470:ℝ) - 430) * ((470:ℝ) - 430) + ((0:ℝ) - 0) * ((0:ℝ) - 0)) = 40 :=
    sqrt_eq_of _ _ (by norm_num) (by norm_num)
  unfold collidePair exA1 exB1 exA2 exB2
  dsimp only
  rw [hsqrt]
  rw [if_pos (by constructor <;> norm_num [PLAYER_RADIUS])]
  rw [if_neg (by norm_num)]
  simp only [Prod.mk.injEq, Player.mk.injEq]
  norm_num [PLAYER_RADIUS]

lemma exMovePlayers : (physicsMove exRoom).players = [exA2, exB2] := by
  show collisionPass (exRoom.players.map fun p => if p.alive then stepPlayer p else p)
      (aliveIndices exRoom.players) = [exA2, exB2]
  have hidx : aliveIndices exRoom.players = [0, 1] := rfl
  have hmap : exRoom.players.map (fun p => if p.alive then stepPlayer p else p)
      = [stepPlayer exA, stepPlayer exB] := by
    show [exA, exB].map (fun p => if p.alive then stepPlayer p else p)
        = [stepPlayer exA, stepPlayer exB]
    simp only [List.map_cons, List.map_nil]
    rw [if_pos (show exA.alive = true from rfl), if_pos (show exB.alive = true from rfl)]
  rw [hidx, hmap, stepA, stepB]
  show (pairsFrom [0, 1]).foldl (fun acc ij => collideAt acc ij.1 ij.2) [exA1, exB1]
      = [exA2, exB2]
  have hp : pairsFrom [0, 1] = [(0, 1)] := rfl
  rw [hp, List.foldl_cons, List.foldl_nil]
  show ([exA1, exB1].set 0 (collidePair exA1 exB1).1).set 1 (collidePair exA1 exB1).2
      = [exA2, exB2]
  rw [collideAB]
  rfl

lemma exEval : update_physics exRoom
    = ⟨"ROOM", some "a", false, false, [exA2, exB2], "finished", 3, none⟩ := by
  have hfilter : [exA2, exB2].filter (fun p => p.alive) = [] := rfl
  unfold update_physics
  rw [if_pos (show exRoom.state = "playing" from rfl)]
  unfold checkWinner
  rw [exMovePlayers]
  rw [if_pos (by simp [hfilter, MIN_PLAYERS_TO_START])]
  rw [bumpWinner_none _ hfilter]
  rfl

/-- C1 counterexample: in exRoom both players are alive when the tick
starts; player 0 is ejected in step 3 at x=430 (radius 430 > 425 means
alive is set false there, with x still 430), yet the collision pass of
the very same tick displaces it to x=425.  The pass iterates the
pre-step alive snapshot, so a player ejected in step 3 does take part
in the collision resolution of that tick, refuting the claim. -/
theorem eject_not_excluded_cex :
    (exRoom.players)[0]?.map Player.alive = some true ∧
    (stepPlayer exA).alive = false ∧ (stepPlayer exA).x = 430 ∧
    ((update_physics exRoom).players)[0]?.map Player.x = some 425 ∧
    ((update_physics exRoom).players)[0]?.map Player.alive = some false := by
  refine ⟨rfl, ?_, ?_, ?_, ?_⟩
  · rw [stepA]
    rfl
  · rw [stepA]
    rfl
  · rw [exEval]
    rfl
  · rw [exEval]
    rfl

/-- C2 counterexample: player 0 of exRoom is alive before the step and
its post-step radius is exactly 425 = ARENA_RADIUS + PLAYER_RADIUS (the
collision pass pulled it back from 430), yet its alive flag is false
after the step: the eject decision only sees the step-3 position. -/
theorem stays_alive_cex :
    (exRoom.players)[0]?.map Player.alive = some true ∧
    ((update_physics exRoom).players)[0]? = some exA2 ∧
    Real.sqrt (exA2.x ^ 2 + exA2.y ^ 2) ≤ ARENA_RADIUS + PLAYER_RADIUS ∧
    exA2.alive = false := by
  refine ⟨rfl, ?_, ?_, rfl⟩
  · rw [exEval]
    rfl
  · show Real.sqrt ((425:ℝ) ^ 2 + (0:ℝ) ^ 2) ≤ ARENA_RADIUS + PLAYER_RADIUS
    rw [sqrt_eq_of ((425:ℝ) ^ 2 + (0:ℝ) ^ 2) 425 (by norm_num) (by norm_num)]
    norm_num [ARENA_RADIUS, PLAYER_RADIUS]

/-- Witness for dead_player_untouched: in exRoomW the player in slot 0
is dead before the tick and is bit-identical after the tick. -/
theorem dead_player_untouched_witness :
    (exRoomW.players)[0]? = some wDead ∧ wDead.alive = false ∧
    ((update_physics exRoomW).players)[0]? = some wDead :=
  ⟨rfl, rfl, dead_player_untouched exRoomW 0 wDead rfl rfl⟩

/-- Witness for stays_alive_amended: the player in slot 1 of exRoomW
rests at the origin, far inside the arena, and stays alive. -/
theorem stays_alive_witness :
    (exRoomW.players)[1]? = some wAlive ∧ wAlive.alive = true ∧
    Real.sqrt ((wAlive.x + wAlive.vx) ^ 2 + (wAlive.y + wAlive.vy) ^ 2)
      ≤ ARENA_RADIUS + PLAYER_RADIUS ∧
    ((update_physics exRoomW).players)[1]?.map Player.alive = some true := by
  have hr : Real.sqrt ((wAlive.x + wAlive.vx) ^ 2 + (wAlive.y + wAlive.vy) ^ 2)
      ≤ ARENA_RADIUS + PLAYER_RADIUS := by
    show Real.sqrt (((0:ℝ) + 0) ^ 2 + ((0:ℝ) + 0) ^ 2) ≤ ARENA_RADIUS + PLAYER_RADIUS
    rw [sqrt_eq_of (((0:ℝ) + 0) ^ 2 + ((0:ℝ) + 0) ^ 2) 0 le_rfl (by norm_num)]
    norm_num [ARENA_RADIUS, PLAYER_RADIUS]
  exact ⟨rfl, rfl, hr, stays_alive_amended exRoomW 1 wAlive rfl rfl hr⟩

-- C3: winner decision at the end of a physics step

/-- C3: a physics step from state playing ends in state finished
exactly when at most one player is alive afterwards and the room has at
least MIN_PLAYERS_TO_START players; when exactly one alive player
remains it is recorded as winner and its score is incremented by one;
in every other case (no survivor, or no transition) the winner field is
left unchanged. -/
theorem winner_decision_spec (room : Room) (h : room.state = "playing") :
    ((update_physics room).state = "finished" ↔
      (((physicsMove room).players.filter (fun p => p.alive)).length ≤ 1 ∧
        MIN_PLAYERS_TO_START ≤ (physicsMove room).players.length)) ∧
    (∀ w : Player, (physicsMove room).players.filter (fun p => p.alive) = [w] →
      MIN_PLAYERS_TO_START ≤ (physicsMove room).players.length →
      (update_physics room).winner = some w.id ∧
        ∃ i : Nat, ((physicsMove room).players)[i]? = some w ∧
          ((update_physics room).players)[i]? = some { w with score := w.score + 1 }) ∧
    ((physicsMove room).players.filter (fun p => p.alive) = [] →
      (update_physics room).winner = room.winner) ∧
    (¬(((physicsMove room).players.filter (fun p => p.alive)).length ≤ 1 ∧
        MIN_PLAYERS_TO_START ≤ (physicsMove room).players.length) →
      (update_physics room).winner = room.winner ∧
        (update_physics room).state = "playing") := by
  have hup : update_physics room = checkWinner (physicsMove room) := by
    unfold update_physics
    rw [if_pos h]
  have hsm : (physicsMove room).state = room.state := rfl
  refine ⟨?_, ?_, ?_, ?_⟩
  · constructor
    · intro hst
      by_contra hc
      rw [hup] at hst
      unfold checkWinner at hst
      rw [if_neg hc] at hst
      rw [hsm, h] at hst
      exact absurd hst (by decide)
    · intro hc
      rw [hup]
      unfold checkWinner
      rw [if_pos hc]
  · intro w hfil hlen
    have hc : ((physicsMove room).players.filter (fun p => p.alive)).length ≤ 1 ∧
        MIN_PLAYERS_TO_START ≤ (physicsMove room).players.length := by
      refine ⟨?_, hlen⟩
      rw [hfil]
      norm_num
    rcases bumpWinner_first (physicsMove room).players w [] hfil with ⟨hb2, i, hi1, hi2⟩
    rw [hup]
    unfold checkWinner
    rw [if_pos hc]
    refine ⟨?_, i, hi1, ?_⟩
    · show (match (bumpWinner (physicsMove room).players).2 with
            | some wid => some wid
            | none => (physicsMove room).winner) = some w.id
      rw [hb2]
    · exact hi2
  · intro hfil
    rw [hup]
    unfold checkWinner
    split_ifs with hc
    · show (match (bumpWinner (physicsMove room).players).2 with
            | some wid => some wid
            | none => (physicsMove room).winner) = room.winner
      rw [bumpWinner_none _ hfil]
      rfl
    · rfl
  · intro hc
    rw [hup]
    unfold checkWinner
    rw [if_neg hc]
    exact ⟨rfl, h⟩

lemma stepW : stepPlayer wAlive = wAlive := by
  unfold stepPlayer wAlive
  dsimp only
  rw [sqrt_eq_of (((0:ℝ) + 0) ^ 2 + ((0:ℝ) + 0) ^ 2) 0 le_rfl (by norm_num)]
  rw [if_neg (by norm_num [ARENA_RADIUS, PLAYER_RADIUS])]
  simp only [Player.mk.injEq]
  norm_num [FRICTION]

lemma exMoveW : (physicsMove exRoomW).players = [wDead, wAlive] := by
  show collisionPass (exRoomW.players.map fun p => if p.alive then stepPlayer p else p)
      (aliveIndices exRoomW.players) = [wDead, wAlive]
  have hidx : aliveIndices exRoomW.players = [1] := rfl
  have hmap : exRoomW.players.map (fun p => if p.alive then stepPlayer p else p)
      = [wDead, stepPlayer wAlive] := by
    show [wDead, wAlive].map (fun p => if p.alive then stepPlayer p else p)
        = [wDead, stepPlayer wAlive]
    simp only [List.map_cons, List.map_nil]
    rw [if_neg (show ¬ wDead.alive = true by decide)]
    rw [if_pos (show wAlive.alive = true from rfl)]
  rw [hidx, hmap, stepW]
  show (pairsFrom [1]).foldl (fun acc ij => collideAt acc ij.1 ij.2) [wDead, wAlive]
      = [wDead, wAlive]
  rfl

/-- Witness for winner_decision_spec: exRoomW has two players, one dead
and one alive survivor w2; the step finishes the match and records w2
as winner. -/
theorem winner_decision_witness :
    (update_physics exRoomW).winner = some "w2" ∧
    (update_physics exRoomW).state = "finished" := by
  have hfil : (physicsMove exRoomW).players.filter (fun p => p.alive) = [wAlive] := by
    rw [exMoveW]
    rfl
  have hlen : MIN_PLAYERS_TO_START ≤ (physicsMove exRoomW).players.length := by
    rw [exMoveW]
    simp [MIN_PLAYERS_TO_START]
  have hspec := winner_decision_spec exRoomW rfl
  refine ⟨?_, ?_⟩
  · exact (hspec.2.1 wAlive hfil hlen).1
  · exact hspec.1.mpr ⟨by rw [hfil]; norm_num, hlen⟩

-- C6: degenerate zero-distance pairs

/-- C6: a collision pair whose two players share one position has
distance d = 0; the guard `0 < d < 2*PLAYER_RADIUS` fails, so the pair
is skipped and both players come out of the pair unchanged. -/
theorem collide_zero_distance_skip (p1 p2 : Player)
    (hx : p1.x = p2.x) (hy : p1.y = p2.y) :
    collidePair p1 p2 = (p1, p2) := by
  unfold collidePair
  dsimp only
  have hd : Real.sqrt ((p2.x - p1.x) * (p2.x - p1.x) + (p2.y - p1.y) * (p2.y - p1.y)) = 0 := by
    rw [hx, hy]
    simp
  rw [hd]
  rw [if_neg (fun hc => lt_irrefl (0:ℝ) hc.2)]

/-- Witness for collide_zero_distance_skip: two concrete players at
(5, 5) moving toward each other are left untouched by their pair. -/
theorem collide_zero_distance_witness :
    cSame1.x = cSame2.x ∧ cSame1.y = cSame2.y ∧
    collidePair cSame1 cSame2 = (cSame1, cSame2) :=
  ⟨rfl, rfl, collide_zero_distance_skip cSame1 cSame2 rfl rfl⟩

-- Helper lemmas about playersInsert and setRoom

lemma playersInsert_frame (ps : List Player) (p' : Player) (k : Nat) (q : Player)
    (hq : ps[k]? = some q) (hne : ¬ q.id = p'.id) :
    (playersInsert ps p')[k]? = some q := by
  unfold playersInsert
  split_ifs with h
  · rw [List.getElem?_map, hq]
    simp [hne]
  · rw [List.getElem?_append_left (getElem?_some_lt hq)]
    exact hq

lemma playersInsert_found (ps : List Player) (pid : String) (p p' : Player)
    (hf : ps.find? (fun q => q.id == pid) = some p) (hid : p'.id = p.id) :
    ∃ k : Nat, ps[k]? = some p ∧ (playersInsert ps p')[k]? = some p' := by
  have hmem : p ∈ ps := List.mem_of_find?_eq_some hf
  rcases List.getElem?_of_mem hmem with ⟨k, hk⟩
  refine ⟨k, hk, ?_⟩
  have hany : ps.any (fun q => q.id == p'.id) = true := by
    rw [List.any_eq_true]
    exact ⟨p, hmem, by rw [hid]; simp⟩
  unfold playersInsert
  rw [if_pos hany, List.getElem?_map, hk]
  simp [hid]

lemma playersInsert_length_of_found (ps : List Player) (pid : String) (p p' : Player)
    (hf : ps.find? (fun q => q.id == pid) = some p) (hid : p'.id = p.id) :
    (playersInsert ps p').length = ps.length := by
  have hany : ps.any (fun q => q.id == p'.id) = true := by
    rw [List.any_eq_true]
    exact ⟨p, List.mem_of_find?_eq_some hf, by rw [hid]; simp⟩
  unfold playersInsert
  rw [if_pos hany, List.length_map]

lemma findRoom_id (rooms : List Room) (rid : String) (room : Room)
    (hf : findRoom rooms rid = some room) : room.id = rid := by
  have := List.find?_some hf
  simpa using this

lemma setRoom_find (rooms : List Room) (rid : String) (room room' : Room)
    (hf : findRoom rooms rid = some room) (hid : room'.id = room.id) :
    findRoom (setRoom rooms room') rid = some room' := by
  induction rooms with
  | nil => cases hf
  | cons r rest IH =>
    unfold findRoom setRoom at IH ⊢
    unfold findRoom at hf
    rw [List.map_cons]
    cases hcond : (r.id == rid) with
    | true =>
      rw [@List.find?_cons_of_pos Room (fun q => q.id == rid) r rest hcond] at hf
      injection hf with hf
      subst hf
      have h1 : (r.id == room'.id) = true := by
        rw [hid]
        simp
      rw [if_pos h1]
      exact @List.find?_cons_of_pos Room (fun q => q.id == rid) room' _
        (by show (room'.id == rid) = true; rw [hid]; exact hcond)
    | false =>
      have hneg : ¬ (r.id == rid) = true := by
        rw [hcond]
        simp
      rw [@List.find?_cons_of_neg Room (fun q => q.id == rid) r rest hneg] at hf
      have hrid : room.id = rid := by
        have := List.find?_some hf
        simpa using this
      have h1 : ¬ (r.id == room'.id) = true := by
        rw [hid, hrid]
        exact hneg
      rw [if_neg h1]
      rw [@List.find?_cons_of_neg Room (fun q => q.id == rid) r _ hneg]
      exact IH hf

lemma setRoom_mem_frame (rooms : List Room) (room' r : Room)
    (hr : r ∈ rooms) (hne : ¬ r.id = room'.id) :
    r ∈ setRoom rooms room' := by
  unfold setRoom
  have hm := List.mem_map_of_mem (fun q : Room => if q.id == room'.id then room' else q) hr
  simpa [hne] using hm

-- C5: apply_input

/-- C5: apply_input leaves all state unchanged when the player is
unknown, its room is missing or not in state playing, the player is not
in the room or not alive, or the input magnitude m = sqrt(dx^2+dy^2) is
zero; otherwise it adds exactly (dx/m)*1.5 to vx and (dy/m)*1.5 to vy
of that player and changes nothing else: manager index, other rooms,
the room's control fields and every other player are untouched. -/
theorem apply_input_spec (gm : GameManager) (pid : String) (dx dy : ℝ) :
    (dictLookup gm.player_rooms pid = none → gm.apply_input pid dx dy = gm) ∧
    (∀ rid : String, dictLookup gm.player_rooms pid = some rid →
      findRoom gm.rooms rid = none → gm.apply_input pid dx dy = gm) ∧
    (∀ (rid : String) (room : Room), dictLookup gm.player_rooms pid = some rid →
      findRoom gm.rooms rid = some room → ¬ room.state = "playing" →
      gm.apply_input pid dx dy = gm) ∧
    (∀ (rid : String) (room : Room), dictLookup gm.player_rooms pid = some rid →
      findRoom gm.rooms rid = some room → room.state = "playing" →
      room.players.find? (fun p => p.id == pid) = none →
      gm.apply_input pid dx dy = gm) ∧
    (∀ (rid : String) (room : Room) (p : Player),
      dictLookup gm.player_rooms pid = some rid →
      findRoom gm.rooms rid = some room → room.state = "playing" →
      room.players.find? (fun p => p.id == pid) = some p → p.alive = false →
      gm.apply_input pid dx dy = gm) ∧
    (∀ (rid : String) (room : Room) (p : Player),
      dictLookup gm.player_rooms pid = some rid →
      findRoom gm.rooms rid = some room → room.state = "playing" →
      room.players.find? (fun p => p.id == pid) = some p →
      Real.sqrt (dx * dx + dy * dy) = 0 →
      gm.apply_input pid dx dy = gm) ∧
    (∀ (rid : String) (room : Room) (p : Player),
      dictLookup gm.player_rooms pid = some rid →
      findRoom gm.rooms rid = some room → room.state = "playing" →
      room.players.find? (fun p => p.id == pid) = some p → p.alive = true →
      0 < Real.sqrt (dx * dx + dy * dy) →
      (gm.apply_input pid dx dy).player_rooms = gm.player_rooms ∧
      (∀ r ∈ gm.rooms, ¬ r.id = rid → r ∈ (gm.apply_input pid dx dy).rooms) ∧
      ∃ room', findRoom (gm.apply_input pid dx dy).rooms rid = some room' ∧
        room'.state = room.state ∧ room'.winner = room.winner ∧
        room'.countdown = room.countdown ∧ room'.owner_id = room.owner_id ∧
        room'.players.length = room.players.length ∧
        (∀ (k : Nat) (q : Player), room.players[k]? = some q → ¬ q.id = pid →
          room'.players[k]? = some q) ∧
        (∃ k : Nat, room.players[k]? = some p ∧
          room'.players[k]? = some
            { p with vx := p.vx + dx / Real.sqrt (dx * dx + dy * dy) * 1.5,
                     vy := p.vy + dy / Real.sqrt (dx * dx + dy * dy) * 1.5 })) := by
  refine ⟨?_, ?_, ?_, ?_, ?_, ?_, ?_⟩
  · intro hlk
    unfold GameManager.apply_input
    rw [hlk]
  · intro rid hlk hfr
    unfold GameManager.apply_input
    rw [hlk]
    dsimp only
    rw [hfr]
  · intro rid room hlk hfr hstn
    unfold GameManager.apply_input
    rw [hlk]
    dsimp only
    rw [hfr]
    dsimp only
    rw [if_neg hstn]
  · intro rid room hlk hfr hst hfp
    unfold GameManager.apply_input
    rw [hlk]
    dsimp only
    rw [hfr]
    dsimp only
    rw [if_pos hst, hfp]
  · intro rid room p hlk hfr hst hfp ha
    unfold GameManager.apply_input
    rw [hlk]
    dsimp only
    rw [hfr]
    dsimp only
    rw [if_pos hst, hfp]
    dsimp only
    rw [if_neg (by rw [ha]; simp)]
  · intro rid room p hlk hfr hst hfp hm0
    unfold GameManager.apply_input
    rw [hlk]
    dsimp only
    rw [hfr]
    dsimp only
    rw [if_pos hst, hfp]
    dsimp only
    split_ifs with ha hm
    · rw [hm0] at hm
      exact absurd hm (lt_irrefl 0)
    · rfl
    · rfl
  · intro rid room p hlk hfr hst hfp ha hm
    have hpid : p.id = pid := by
      have := List.find?_some hfp
      simpa using this
    have hres : gm.apply_input pid dx dy
        = GameManager.mk
            (setRoom gm.rooms
              (Room.mk room.id room.owner_id room.is_public room.is_bot_room
                (playersInsert room.players
                  (Player.mk p.id p.name p.x p.y
                    (p.vx + dx / Real.sqrt (dx * dx + dy * dy) * 1.5)
                    (p.vy + dy / Real.sqrt (dx * dx + dy * dy) * 1.5)
                    p.color p.alive p.score p.is_bot))
                room.state room.countdown room.winner))
            gm.player_rooms := by
      unfold GameManager.apply_input
      rw [hlk]
      dsimp only
      rw [hfr]
      dsimp only
      rw [if_pos hst, hfp]
      dsimp only
      rw [if_pos ha]
      rw [if_pos hm]
    rw [hres]
    refine ⟨rfl, ?_, ?_⟩
    · intro r hr hne
      refine setRoom_mem_frame gm.rooms _ r hr ?_
      show ¬ r.id = room.id
      rw [findRoom_id gm.rooms rid room hfr]
      exact hne
    · refine ⟨_, setRoom_find gm.rooms rid room _ hfr rfl, rfl, rfl, rfl, rfl, ?_, ?_, ?_⟩
      · exact playersInsert_length_of_found room.players pid p _ hfp rfl
      · intro k q hq hne
        refine playersInsert_frame room.players _ k q hq ?_
        show ¬ q.id = p.id
        rw [hpid]
        exact hne
      · exact playersInsert_found room.players pid p _ hfp rfl

/-- Witness for apply_input_spec: pushing player w2 of gmEx with the
unit input (1, 0) keeps the player index and the player count. -/
theorem apply_input_witness :
    (gmEx.apply_input "w2" 1 0).player_rooms = gmEx.player_rooms ∧
    ∃ room', findRoom (gmEx.apply_input "w2" 1 0).rooms "WXYZ" = some room' ∧
      room'.players.length = exRoomW.players.length := by
  have hm : 0 < Real.sqrt ((1:ℝ) * 1 + 0 * 0) := by
    rw [sqrt_eq_of ((1:ℝ) * 1 + 0 * 0) 1 (by norm_num) (by norm_num)]
    norm_num
  have h := (apply_input_spec gmEx "w2" 1 0).2.2.2.2.2.2 "WXYZ" exRoomW wAlive
    rfl rfl rfl rfl rfl hm
  rcases h with ⟨h1, _, room', hr1, _, _, _, _, hr6, _, _⟩
  exact ⟨h1, room', hr1, hr6⟩

-- C4: start_game and rematch

/-- C4: start_game succeeds exactly when the requester is registered,
owns its room, the room is waiting and has at least
MIN_PLAYERS_TO_START players, in which case the room goes to countdown
with countdown = COUNTDOWN_SECONDS and nothing else changes; rematch
succeeds exactly when the requester is registered, owns its room, the
room is finished and has at least MIN_PLAYERS_TO_START players, in
which case the room goes to countdown, winner is cleared and all
players respawn; every failing call returns the manager unchanged. -/
theorem start_rematch_spec (gm : GameManager) (pid : String) :
    ((gm.start_game pid).2 = true ↔
      ∃ (rid : String) (room : Room), dictLookup gm.player_rooms pid = some rid ∧
        findRoom gm.rooms rid = some room ∧ room.owner_id = some pid ∧
        room.state = "waiting" ∧ MIN_PLAYERS_TO_START ≤ room.players.length) ∧
    ((gm.start_game pid).2 = false → (gm.start_game pid).1 = gm) ∧
    (∀ (rid : String) (room : Room), dictLookup gm.player_rooms pid = some rid →
      findRoom gm.rooms rid = some room → room.owner_id = some pid →
      room.state = "waiting" → MIN_PLAYERS_TO_START ≤ room.players.length →
      findRoom (gm.start_game pid).1.rooms rid
          = some { room with state := "countdown", countdown := COUNTDOWN_SECONDS } ∧
        (gm.start_game pid).1.player_rooms = gm.player_rooms ∧
        (∀ r ∈ gm.rooms, ¬ r.id = rid → r ∈ (gm.start_game pid).1.rooms)) ∧
    ((gm.rematch pid).2 = true ↔
      ∃ (rid : String) (room : Room), dictLookup gm.player_rooms pid = some rid ∧
        findRoom gm.rooms rid = some room ∧ room.owner_id = some pid ∧
        room.state = "finished" ∧ MIN_PLAYERS_TO_START ≤ room.players.length) ∧
    ((gm.rematch pid).2 = false → (gm.rematch pid).1 = gm) ∧
    (∀ (rid : String) (room : Room), dictLookup gm.player_rooms pid = some rid →
      findRoom gm.rooms rid = some room → room.owner_id = some pid →
      room.state = "finished" → MIN_PLAYERS_TO_START ≤ room.players.length →
      findRoom (gm.rematch pid).1.rooms rid
          = some { room with state := "countdown", winner := none,
                             countdown := COUNTDOWN_SECONDS,
                             players := respawnPlayers room.players } ∧
        (gm.rematch pid).1.player_rooms = gm.player_rooms ∧
        (∀ r ∈ gm.rooms, ¬ r.id = rid → r ∈ (gm.rematch pid).1.rooms)) := by
  refine ⟨?_, ?_, ?_, ?_, ?_, ?_⟩
  · constructor
    · intro htrue
      unfold GameManager.start_game at htrue
      cases hlk : dictLookup gm.player_rooms pid with
      | none =>
        rw [hlk] at htrue
        cases htrue
      | some rid =>
        rw [hlk] at htrue
        dsimp only at htrue
        cases hfr : findRoom gm.rooms rid with
        | none =>
          rw [hfr] at htrue
          cases htrue
        | some room =>
          rw [hfr] at htrue
          dsimp only at htrue
          split_ifs at htrue with h1 h2 h3
          exact ⟨rid, room, rfl, hfr, not_not.mp h1, not_not.mp h3, not_lt.mp h2⟩
    · rintro ⟨rid, room, hlk, hfr, hown, hstate, hlen⟩
      unfold GameManager.start_game
      rw [hlk]
      dsimp only
      rw [hfr]
      dsimp only
      rw [if_neg (not_not_intro hown), if_neg (not_lt.mpr hlen), if_neg (not_not_intro hstate)]
  · intro hfalse
    unfold GameManager.start_game at hfalse ⊢
    cases hlk : dictLookup gm.player_rooms pid with
    | none => rfl
    | some rid =>
      rw [hlk] at hfalse
      dsimp only at hfalse ⊢
      cases hfr : findRoom gm.rooms rid with
      | none => rfl
      | some room =>
        rw [hfr] at hfalse
        dsimp only at hfalse ⊢
        split_ifs at hfalse ⊢ <;> rfl
  · intro rid room hlk hfr hown hstate hlen
    have hres : (gm.start_game pid).1
        = GameManager.mk
            (setRoom gm.rooms
              (Room.mk room.id room.owner_id room.is_public room.is_bot_room
                room.players "countdown" COUNTDOWN_SECONDS room.winner))
            gm.player_rooms := by
      unfold GameManager.start_game
      rw [hlk]
      dsimp only
      rw [hfr]
      dsimp only
      rw [if_neg (not_not_intro hown), if_neg (not_lt.mpr hlen), if_neg (not_not_intro hstate)]
    rw [hres]
    refine ⟨setRoom_find gm.rooms rid room _ hfr rfl, rfl, ?_⟩
    · intro r hr hne
      refine setRoom_mem_frame gm.rooms _ r hr ?_
      show ¬ r.id = room.id
      rw [findRoom_id gm.rooms rid room hfr]
      exact hne
  · constructor
    · intro htrue
      unfold GameManager.rematch at htrue
      cases hlk : dictLookup gm.player_rooms pid with
      | none =>
        rw [hlk] at htrue
        cases htrue
      | some rid =>
        rw [hlk] at htrue
        dsimp only at htrue
        cases hfr : findRoom gm.rooms rid with
        | none =>
          rw [hfr] at htrue
          cases htrue
        | some room =>
          rw [hfr] at htrue
          dsimp only at htrue
          split_ifs at htrue with h1 h2 h3
          exact ⟨rid, room, rfl, hfr, not_not.mp h1, not_not.mp h3, not_lt.mp h2⟩
    · rintro ⟨rid, room, hlk, hfr, hown, hstate, hlen⟩
      unfold GameManager.rematch
      rw [hlk]
      dsimp only
      rw [hfr]
      dsimp only
      rw [if_neg (not_not_intro hown), if_neg (not_lt.mpr hlen), if_neg (not_not_intro hstate)]
  · intro hfalse
    unfold GameManager.rematch at hfalse ⊢
    cases hlk : dictLookup gm.player_rooms pid with
    | none => rfl
    | some rid =>
      rw [hlk] at hfalse
      dsimp only at hfalse ⊢
      cases hfr : findRoom gm.rooms rid with
      | none => rfl
      | some room =>
        rw [hfr] at hfalse
        dsimp only at hfalse ⊢
        split_ifs at hfalse ⊢ <;> rfl
  · intro rid room hlk hfr hown hstate hlen
    have hres : (gm.rematch pid).1
        = GameManager.mk
            (setRoom gm.rooms
              (Room.mk room.id room.owner_id room.is_public room.is_bot_room
                (respawnPlayers room.players) "countdown" COUNTDOWN_SECONDS none))
            gm.player_rooms := by
      unfold GameManager.rematch
      rw [hlk]
      dsimp only
      rw [hfr]
      dsimp only
      rw [if_neg (not_not_intro hown), if_neg (not_lt.mpr hlen), if_neg (not_not_intro hstate)]
    rw [hres]
    refine ⟨setRoom_find gm.rooms rid room _ hfr rfl, rfl, ?_⟩
    · intro r hr hne
      refine setRoom_mem_frame gm.rooms _ r hr ?_
      show ¬ r.id = room.id
      rw [findRoom_id gm.rooms rid room hfr]
      exact hne

/-- Witness for start_rematch_spec: pid w2 is not the owner of its
room in gmEx, so start_game fails and changes nothing. -/
theorem start_rematch_witness :
    (gmEx.start_game "w2").2 = false ∧ (gmEx.start_game "w2").1 = gmEx := by
  have hfalse : (gmEx.start_game "w2").2 = false := by
    unfold GameManager.start_game
    rw [show dictLookup gmEx.player_rooms "w2" = some "WXYZ" from rfl]
    dsimp only
    rw [show findRoom gmEx.rooms "WXYZ" = some exRoomW from rfl]
    dsimp only
    rw [if_pos (show exRoomW.owner_id ≠ some "w2" by decide)]
  exact ⟨hfalse, (start_rematch_spec gmEx "w2").2.1 hfalse⟩

-- C7 helpers: ownerOk preservation

lemma setRoom_all_ownerOk (rooms : List Room) (room' : Room)
    (hall : rooms.all ownerOk = true) (h' : ownerOk room' = true) :
    (setRoom rooms room').all ownerOk = true := by
  rw [List.all_eq_true] at hall ⊢
  intro r hr
  unfold setRoom at hr
  rcases List.mem_map.mp hr with ⟨q, hq, rfl⟩
  split_ifs
  · exact h'
  · exact hall q hq

lemma playersInsert_any_id (ps : List Player) (p : Player) :
    (playersInsert ps p).any (fun q => q.id == p.id) = true := by
  unfold playersInsert
  split_ifs with h
  · rw [List.any_eq_true] at h ⊢
    rcases h with ⟨q, hq, hqe⟩
    refine ⟨p, ?_, by simp⟩
    have hmm := List.mem_map_of_mem (fun q : Player => if q.id == p.id then p else q) hq
    simpa [hqe] using hmm
  · rw [List.any_eq_true]
    exact ⟨p, by simp, by simp⟩

lemma playersInsert_any_mono (ps : List Player) (p : Player) (oid : String)
    (h : ps.any (fun q => q.id == oid) = true) :
    (playersInsert ps p).any (fun q => q.id == oid) = true := by
  unfold playersInsert
  split_ifs with hmem
  · rw [List.any_eq_true] at h ⊢
    rcases h with ⟨q, hq, hqe⟩
    by_cases hqp : (q.id == p.id) = true
    · have h1 : q.id = p.id := by simpa using hqp
      have h2 : q.id = oid := by simpa using hqe
      have h3 : p.id = oid := by rw [← h1]; exact h2
      refine ⟨p, ?_, by simp [h3]⟩
      have hmm := List.mem_map_of_mem (fun q : Player => if q.id == p.id then p else q) hq
      simpa [hqp] using hmm
    · refine ⟨q, ?_, hqe⟩
      have hmm := List.mem_map_of_mem (fun q : Player => if q.id == p.id then p else q) hq
      simpa [hqp] using hmm
  · rw [List.any_eq_true] at h ⊢
    rcases h with ⟨q, hq, hqe⟩
    exact ⟨q, List.mem_append_left _ hq, hqe⟩

lemma ownerOk_insert (room : Room) (p : Player) (hok : ownerOk room = true) :
    ownerOk { room with players := playersInsert room.players p,
                        owner_id := if room.owner_id = none then some p.id
                                    else room.owner_id } = true := by
  unfold ownerOk at hok ⊢
  dsimp only
  cases hown : room.owner_id with
  | none =>
    rw [if_pos rfl]
    exact playersInsert_any_id room.players p
  | some oid =>
    rw [if_neg (by simp)]
    rw [hown] at hok
    dsimp only at hok
    exact playersInsert_any_mono room.players p oid hok

-- C7: owner invariant

/-- C7: every registry operation preserves the owner invariant (a room
owner is null only when the room is empty, and otherwise is the id of a
member): create_room creates an empty unowned room, add_player and
add_bot keep or install an owner that is a member, and remove_player
reassigns ownership to the first remaining member when the owner leaves
a room that stays non-empty. -/
theorem owner_invariant_preserved :
    (∀ (gm : GameManager) (rng : Nat → Nat → Nat) (pub bot : Bool)
      (h : ∃ n, generate_room_id (rng n) ∉ roomIds gm.rooms),
      gm.rooms.all ownerOk = true →
      (GameManager.create_room gm rng pub bot h).1.rooms.all ownerOk = true) ∧
    (∀ (gm : GameManager) (room : Room) (pid name : String) (x y : ℝ),
      gm.rooms.all ownerOk = true → ownerOk room = true →
      (GameManager.add_player gm room pid name x y).1.rooms.all ownerOk = true) ∧
    (∀ (gm : GameManager) (room : Room) (pid name : String) (x y : ℝ),
      gm.rooms.all ownerOk = true → ownerOk room = true →
      (GameManager.add_bot gm room pid name x y).1.rooms.all ownerOk = true) ∧
    (∀ (gm : GameManager) (pid : String),
      gm.rooms.all ownerOk = true →
      (GameManager.remove_player gm pid).rooms.all ownerOk = true) ∧
    (∀ (gm : GameManager) (pid rid : String) (room : Room),
      dictLookup gm.player_rooms pid = some rid →
      findRoom gm.rooms rid = some room → room.owner_id = some pid →
      room.players.filter (fun q : Player => !(q.id == pid)) ≠ [] →
      ∃ room', findRoom (GameManager.remove_player gm pid).rooms rid = some room' ∧
        ∃ q : Player, room'.owner_id = some q.id ∧ q ∈ room'.players) := by
  refine ⟨?_, ?_, ?_, ?_, ?_⟩
  · intro gm rng pub bot h hall
    show (gm.rooms ++ [_]).all ownerOk = true
    rw [List.all_append, hall]
    rfl
  · intro gm room pid name x y hall hok
    refine setRoom_all_ownerOk gm.rooms _ hall ?_
    exact ownerOk_insert room
      (Player.mk pid (name.take 15) x y 0 0
        (colorsList.getD (room.players.length % colorsList.length) "#FF6B6B") true 0 false) hok
  · intro gm room pid name x y hall hok
    refine setRoom_all_ownerOk gm.rooms _ hall ?_
    exact ownerOk_insert room
      (Player.mk pid name x y 0 0
        (colorsList.getD (room.players.length % colorsList.length) "#FF6B6B") true 0 true) hok
  · intro gm pid hall
    unfold GameManager.remove_player
    cases hlk : dictLookup gm.player_rooms pid with
    | none => exact hall
    | some rid =>
      dsimp only
      cases hfr : findRoom gm.rooms rid with
      | none => exact hall
      | some room =>
        have hok : ownerOk room = true := by
          rw [List.all_eq_true] at hall
          exact hall room (List.mem_of_find?_eq_some hfr)
        dsimp only
        split_ifs with hlen hcond
        · rw [List.all_eq_true] at hall ⊢
          intro r hr
          exact hall r (List.mem_of_mem_filter hr)
        · refine setRoom_all_ownerOk gm.rooms _ hall ?_
          unfold ownerOk
          dsimp only
          cases hhead : (room.players.filter (fun q : Player => !(q.id == pid))).head? with
          | none =>
            rw [List.head?_eq_none_iff] at hhead
            rw [hhead]
            rfl
          | some q =>
            show (room.players.filter (fun q : Player => !(q.id == pid))).any
                (fun p => p.id == q.id) = true
            rw [List.any_eq_true]
            exact ⟨q, List.mem_of_mem_head? (by simp [hhead]), by simp⟩
        · refine setRoom_all_ownerOk gm.rooms _ hall ?_
          unfold ownerOk
          dsimp only
          cases hown : room.owner_id with
          | none =>
            unfold ownerOk at hok
            rw [hown] at hok
            dsimp only at hok
            rw [List.isEmpty_iff] at hok
            rw [hok] at hlen
            simp at hlen
          | some oid =>
            dsimp only
            unfold ownerOk at hok
            rw [hown] at hok
            dsimp only at hok
            rw [List.any_eq_true] at hok ⊢
            rcases hok with ⟨q, hq, hqe⟩
            refine ⟨q, ?_, hqe⟩
            rw [List.mem_filter]
            refine ⟨hq, ?_⟩
            by_cases hqp : q.id = pid
            · exfalso
              apply hcond
              constructor
              · rw [hown]
                have h2 : q.id = oid := by simpa using hqe
                rw [← h2, hqp]
              · exact Nat.pos_of_ne_zero hlen
            · simp [hqp]
  · intro gm pid rid room hlk hfr hown hne
    unfold GameManager.remove_player
    rw [hlk]
    dsimp only
    rw [hfr]
    dsimp only
    have hlen : ¬ (room.players.filter (fun q : Player => !(q.id == pid))).length = 0 := by
      rw [List.length_eq_zero]
      exact hne
    rw [if_neg hlen]
    have hcond : room.owner_id = some pid ∧
        0 < (room.players.filter (fun q : Player => !(q.id == pid))).length :=
      ⟨hown, Nat.pos_of_ne_zero hlen⟩
    cases hhead : (room.players.filter (fun q : Player => !(q.id == pid))).head? with
    | none =>
      rw [List.head?_eq_none_iff] at hhead
      exact absurd hhead hne
    | some q =>
      refine ⟨_, setRoom_find gm.rooms rid room _ hfr rfl, q, ?_, ?_⟩
      · show (if _ ∧ _ then _ else room.owner_id) = some q.id
        rw [if_pos hcond]
        rfl
      · show q ∈ room.players.filter (fun q : Player => !(q.id == pid))
        exact List.mem_of_mem_head? (by simp [hhead])

/-- Witness for owner_invariant_preserved: removing the owner w1 from
gmEx keeps the owner invariant on every room. -/
theorem owner_invariant_witness :
    gmEx.rooms.all ownerOk = true ∧
    (GameManager.remove_player gmEx "w1").rooms.all ownerOk = true := by
  have hall : gmEx.rooms.all ownerOk = true := rfl
  exact ⟨hall, owner_invariant_preserved.2.2.2.1 gmEx "w1" hall⟩

-- C8: room id generation

lemma getD_mem : ∀ (l : List Char) (n : Nat) (d : Char), n < l.length → l.getD n d ∈ l := by
  intro l
  induction l with
  | nil =>
    intro n d h
    simp at h
  | cons a rest IH =>
    intro n d h
    cases n with
    | zero => simp [List.getD]
    | succ n =>
      rw [List.getD_cons_succ]
      exact List.mem_cons_of_mem a (IH n d (by simpa using h))

/-- C8: create_room returns a room whose id has exactly 4 characters,
all drawn from the 26 uppercase ASCII letters, and which differs from
the id of every room already in the registry at insertion time; hence
pairwise distinctness of live room ids is preserved. -/
theorem create_room_id_spec (gm : GameManager) (rng : Nat → Nat → Nat)
    (pub bot : Bool) (h : ∃ n, generate_room_id (rng n) ∉ roomIds gm.rooms) :
    (GameManager.create_room gm rng pub bot h).2.id.length = 4 ∧
    (∀ c ∈ (GameManager.create_room gm rng pub bot h).2.id.toList, c ∈ ascii_uppercase) ∧
    (GameManager.create_room gm rng pub bot h).2.id ∉ roomIds gm.rooms ∧
    ((roomIds gm.rooms).Nodup →
      (roomIds (GameManager.create_room gm rng pub bot h).1.rooms).Nodup) := by
  refine ⟨rfl, ?_, ?_, ?_⟩
  · intro c hc
    have hc' : c ∈ (List.range 4).map
        (fun k => ascii_uppercase.getD (rng (Nat.find h) k % 26) 'A') := hc
    rcases List.mem_map.mp hc' with ⟨k, hk, rfl⟩
    have h26 : ascii_uppercase.length = 26 := rfl
    exact getD_mem ascii_uppercase _ 'A' (by rw [h26]; exact Nat.mod_lt _ (by norm_num))
  · exact Nat.find_spec h
  · intro hnd
    have hre : roomIds (GameManager.create_room gm rng pub bot h).1.rooms
        = roomIds gm.rooms ++ [generate_room_id (rng (Nat.find h))] := by
      unfold GameManager.create_room roomIds
      rw [List.map_append]
      rfl
    rw [hre, List.nodup_append]
    refine ⟨hnd, List.nodup_singleton _, ?_⟩
    intro a ha hb
    rw [List.mem_singleton] at hb
    subst hb
    exact Nat.find_spec h ha

/-- Witness for create_room_id_spec: creating a room in an empty
registry with an all-zero sampler yields a fresh 4-letter id. -/
theorem create_room_id_witness :
    ((GameManager.mk [] []).create_room (fun _ _ => 0) true false
        ⟨0, by simp [roomIds]⟩).2.id.length = 4 ∧
    ((GameManager.mk [] []).create_room (fun _ _ => 0) true false
        ⟨0, by simp [roomIds]⟩).2.id ∉ roomIds (GameManager.mk [] []).rooms := by
  have h := create_room_id_spec (GameManager.mk [] []) (fun _ _ => 0) true false
    ⟨0, by simp [roomIds]⟩
  exact ⟨h.1, h.2.2.1⟩

-- C9 helpers: winnerOk preservation

lemma winnerOk_none (room : Room) (h : room.winner = none) : winnerOk room = true := by
  unfold winnerOk
  rw [h]

lemma winnerOk_not_finished (room : Room) (hok : winnerOk room = true)
    (hs : ¬ room.state = "finished") : room.winner = none := by
  unfold winnerOk at hok
  cases hw : room.winner with
  | none => rfl
  | some wid =>
    rw [hw] at hok
    dsimp only at hok
    rw [Bool.and_eq_true] at hok
    exact absurd (by simpa using hok.1) hs

lemma setRoom_all_winnerOk (rooms : List Room) (room' : Room)
    (hall : rooms.all winnerOk = true) (h' : winnerOk room' = true) :
    (setRoom rooms room').all winnerOk = true := by
  rw [List.all_eq_true] at hall ⊢
  intro r hr
  unfold setRoom at hr
  rcases List.mem_map.mp hr with ⟨q, hq, rfl⟩
  split_ifs
  · exact h'
  · exact hall q hq

-- C9: winner is non-null only in state finished and names an alive member

/-- C9: winnerOk (winner is non-null only in state finished, and then
names a player of the room whose alive flag is true) is preserved by
update_physics, holds after the bot-room reset to waiting and the
bot-room auto-rematch (both clear winner), and is preserved across all
rooms by start_game and rematch. -/
theorem winner_state_invariant :
    (∀ room : Room, winnerOk room = true → winnerOk (update_physics room) = true) ∧
    (∀ room : Room, winnerOk (resetBotRoom room) = true) ∧
    (∀ room : Room, winnerOk (autoRematch room) = true) ∧
    (∀ (gm : GameManager) (pid : String), gm.rooms.all winnerOk = true →
      (gm.start_game pid).1.rooms.all winnerOk = true) ∧
    (∀ (gm : GameManager) (pid : String), gm.rooms.all winnerOk = true →
      (gm.rematch pid).1.rooms.all winnerOk = true) := by
  refine ⟨?_, ?_, ?_, ?_, ?_⟩
  · intro room hok
    unfold update_physics
    split_ifs with hs
    · have hwnone : room.winner = none :=
        winnerOk_not_finished room hok (by rw [hs]; decide)
      unfold checkWinner
      split_ifs with hc
      · cases hfil : (physicsMove room).players.filter (fun p => p.alive) with
        | nil =>
          apply winnerOk_none
          show (match (bumpWinner (physicsMove room).players).2 with
                | some wid => some wid
                | none => (physicsMove room).winner) = none
          rw [bumpWinner_none _ hfil]
          exact hwnone
        | cons w ws =>
          have hwal : w.alive = true := by
            have hmem : w ∈ (physicsMove room).players.filter (fun p => p.alive) := by
              rw [hfil]
              exact List.mem_cons_self _ _
            exact (List.mem_filter.mp hmem).2
          rcases bumpWinner_first _ w ws hfil with ⟨hb2, i, hi1, hi2⟩
          unfold winnerOk
          dsimp only
          rw [hb2]
          dsimp only
          rw [Bool.and_eq_true]
          refine ⟨by simp, ?_⟩
          rw [List.any_eq_true]
          refine ⟨_, List.getElem?_mem hi2, ?_⟩
          simp [hwal]
      · exact winnerOk_none _ hwnone
    · exact hok
  · intro room
    exact winnerOk_none _ rfl
  · intro room
    exact winnerOk_none _ rfl
  · intro gm pid hall
    unfold GameManager.start_game
    cases hlk : dictLookup gm.player_rooms pid with
    | none => exact hall
    | some rid =>
      dsimp only
      cases hfr : findRoom gm.rooms rid with
      | none => exact hall
      | some room =>
        dsimp only
        split_ifs with h1 h2 h3
        · exact hall
        · exact hall
        · exact hall
        · have hok : winnerOk room = true := by
            rw [List.all_eq_true] at hall
            exact hall room (List.mem_of_find?_eq_some hfr)
          have hwnone : room.winner = none := by
            refine winnerOk_not_finished room hok ?_
            rw [not_not.mp h3]
            decide
          exact setRoom_all_winnerOk gm.rooms _ hall (winnerOk_none _ hwnone)
  · intro gm pid hall
    unfold GameManager.rematch
    cases hlk : dictLookup gm.player_rooms pid with
    | none => exact hall
    | some rid =>
      dsimp only
      cases hfr : findRoom gm.rooms rid with
      | none => exact hall
      | some room =>
        dsimp only
        split_ifs with h1 h2 h3
        · exact hall
        · exact hall
        · exact hall
        · exact setRoom_all_winnerOk gm.rooms _ hall (winnerOk_none _ rfl)

/-- Witness for winner_state_invariant: exRoomW satisfies winnerOk and
still does after one physics step (which finishes the match with winner
w2). -/
theorem winner_state_witness :
    winnerOk exRoomW = true ∧ winnerOk (update_physics exRoomW) = true := by
  have hok : winnerOk exRoomW = true := rfl
  exact ⟨hok, winner_state_invariant.1 exRoomW hok⟩

-- C10 helpers: botStep and botsGo frame facts

lemma botStep_frame (ps : List Player) (bot : Player) (nz : ℝ × ℝ) (pq : Bool) :
    (botStep ps bot nz pq).id = bot.id ∧ (botStep ps bot nz pq).name = bot.name ∧
    (botStep ps bot nz pq).x = bot.x ∧ (botStep ps bot nz pq).y = bot.y ∧
    (botStep ps bot nz pq).color = bot.color ∧ (botStep ps bot nz pq).alive = bot.alive ∧
    (botStep ps bot nz pq).score = bot.score ∧ (botStep ps bot nz pq).is_bot = bot.is_bot := by
  unfold botStep
  dsimp only
  split_ifs <;> exact ⟨rfl, rfl, rfl, rfl, rfl, rfl, rfl, rfl⟩

lemma botsGo_length (ps : List Player) (noise : Nat → ℝ × ℝ) (push : Nat → Bool) :
    ∀ (i : Nat) (l : List Player), (botsGo ps noise push i l).length = l.length := by
  intro i l
  induction l generalizing i with
  | nil => rfl
  | cons p rest IH =>
    show (_ :: botsGo ps noise push (i + 1) rest).length = rest.length + 1
    rw [List.length_cons, IH (i + 1)]

lemma botsGo_get (ps : List Player) (noise : Nat → ℝ × ℝ) (push : Nat → Bool) :
    ∀ (i k : Nat) (l : List Player),
    (botsGo ps noise push i l)[k]? = (l[k]?).map
      (fun p => if p.alive && p.is_bot then botStep ps p (noise (i + k)) (push (i + k))
                else p) := by
  intro i k l
  induction l generalizing i k with
  | nil => simp [botsGo]
  | cons p rest IH =>
    cases k with
    | zero => simp [botsGo]
    | succ k =>
      simp only [botsGo, List.getElem?_cons_succ]
      rw [IH (i + 1) k, show i + 1 + k = i + (k + 1) from by omega]

-- C10: update_bot_ai frame conditions

/-- C10: update_bot_ai is the identity when the room is not playing; it
never changes the room's id, owner, flags, state, countdown or winner,
keeps the player list length, keeps every player's id, name, position,
color, alive flag, score and bot flag, and leaves every player that is
not an alive bot entirely unchanged (only alive bots can have vx, vy
modified). -/
theorem update_bot_ai_frame (room : Room) (noise : Nat → ℝ × ℝ) (push : Nat → Bool) :
    (¬ room.state = "playing" → update_bot_ai room noise push = room) ∧
    (update_bot_ai room noise push).id = room.id ∧
    (update_bot_ai room noise push).owner_id = room.owner_id ∧
    (update_bot_ai room noise push).is_public = room.is_public ∧
    (update_bot_ai room noise push).is_bot_room = room.is_bot_room ∧
    (update_bot_ai room noise push).state = room.state ∧
    (update_bot_ai room noise push).countdown = room.countdown ∧
    (update_bot_ai room noise push).winner = room.winner ∧
    (update_bot_ai room noise push).players.length = room.players.length ∧
    (∀ (k : Nat) (p : Player), room.players[k]? = some p →
      ∃ p', (update_bot_ai room noise push).players[k]? = some p' ∧
        p'.id = p.id ∧ p'.name = p.name ∧ p'.x = p.x ∧ p'.y = p.y ∧
        p'.color = p.color ∧ p'.alive = p.alive ∧ p'.score = p.score ∧
        p'.is_bot = p.is_bot ∧
        (¬ (p.alive = true ∧ p.is_bot = true) → p' = p)) := by
  unfold update_bot_ai
  split_ifs with hs
  · refine ⟨fun hn => absurd hs hn, rfl, rfl, rfl, rfl, rfl, rfl, rfl, ?_, ?_⟩
    · exact botsGo_length room.players noise push 0 room.players
    · intro k p hp
      rw [botsGo_get room.players noise push 0 k, hp]
      simp only [Option.map_some']
      by_cases hb : (p.alive && p.is_bot) = true
      · rw [if_pos hb]
        rcases botStep_frame room.players p (noise (0 + k)) (push (0 + k)) with
          ⟨f1, f2, f3, f4, f5, f6, f7, f8⟩
        refine ⟨_, rfl, f1, f2, f3, f4, f5, f6, f7, f8, ?_⟩
        intro hnb
        exfalso
        apply hnb
        rw [Bool.and_eq_true] at hb
        exact ⟨hb.1, hb.2⟩
      · rw [if_neg hb]
        exact ⟨p, rfl, rfl, rfl, rfl, rfl, rfl, rfl, rfl, rfl, fun _ => rfl⟩
  · exact ⟨fun _ => rfl, rfl, rfl, rfl, rfl, rfl, rfl, rfl, rfl,
      fun k p hp => ⟨p, hp, rfl, rfl, rfl, rfl, rfl, rfl, rfl, rfl, fun _ => rfl⟩⟩

/-- Witness for update_bot_ai_frame: on a waiting room the bot AI is
the identity, and in the playing room exRoomW the non-bot player in
slot 1 is returned unchanged. -/
theorem update_bot_ai_witness :
    update_bot_ai (Room.mk "WXYZ" (some "w1") false false [wDead, wAlive] "waiting" 3 none)
        (fun _ => (0, 0)) (fun _ => false)
      = Room.mk "WXYZ" (some "w1") false false [wDead, wAlive] "waiting" 3 none ∧
    ∃ p', (update_bot_ai exRoomW (fun _ => (0, 0)) (fun _ => false)).players[1]? = some p' ∧
      p' = wAlive := by
  constructor
  · exact (update_bot_ai_frame _ _ _).1 (by decide)
  · rcases (update_bot_ai_frame exRoomW (fun _ => (0, 0)) (fun _ => false)).2.2.2.2.2.2.2.2.2
      1 wAlive rfl with ⟨p', hp1, _, _, _, _, _, _, _, _, hp2⟩
    exact ⟨p', hp1, hp2 (by decide)⟩
